import Mathlib

/-!
Verification of the synchronization script `scripts/svn_copy_and_commit.py`.

The script mirrors a source directory tree into an SVN working copy, reconciles
the SVN bookkeeping (scheduling deletes for files that went missing, force-adding
everything new), and commits when the post-reconciliation status is non-empty.

The development below is a shallow embedding of that script:

* file trees are finite association lists from relative paths (lists of path
  components) to file contents;
* the portable (non-Windows) mirroring pass of `main` (lines 105-132 of the
  script) is embedded both as a tree transformer (`mirrorPortable`) and as the
  list of deletion operations it issues (`deletionOps`), including which of
  those operations tolerate a missing target;
* the XML status parsing of `parse_missing_paths_from_svn_status_xml` is
  embedded over an inductive XML document type (the string-to-XML parsing done
  by `xml.etree.ElementTree.fromstring` is library code, so a run's parse
  result is supplied by the environment model);
* the control flow of `main` is embedded as `mainRun`, a function from the
  configuration and the behaviour of the external world (command successes,
  captured outputs) to the list of observable events (executed commands,
  directory creation, the mirroring step) plus the run outcome.
-/

namespace SvnSync

/-- A relative path, as a list of path components. -/
abbrev Path := List String

/-- A file tree: an association list from relative file paths to file contents.
Directories are implicit: a directory exists at `q` exactly when some file path
strictly below `q` is present. -/
abbrev FS := List (Path × String)

/-- Does the tree contain a file at exactly path `p`? -/
def hasFile (fs : FS) (p : Path) : Bool :=
  fs.any (fun e => e.1 == p)

/-- Is `q` a proper ancestor path of `p` (so `q` denotes a directory containing
the file `p`)? -/
def underDir (q p : Path) : Bool :=
  q.isPrefixOf p && decide (q.length < p.length)

/-- Does the tree contain a directory at path `q`, i.e. a file strictly below `q`? -/
def hasDir (fs : FS) (q : Path) : Bool :=
  fs.any (fun e => underDir q e.1)

/-- Embedding of `os.path.exists` relative to a tree: something (file or
directory) is present at `p`. -/
def existsPath (fs : FS) (p : Path) : Bool :=
  hasFile fs p || hasDir fs p

/-- Content lookup (first entry wins, matching the association-list reading). -/
def lookupFS (fs : FS) (p : Path) : Option String :=
  (fs.find? (fun e => e.1 == p)).map (·.2)

/-- A file path strictly inside the root-level `.svn` metadata directory.
The walk over the working copy prunes the `.svn` directory only at the root
(`dirs[:] = [d for d in dirs if d != ".svn"]` under `rel == "."`), so exactly
the files at paths `.svn/...` of depth at least two are never visited. A file
literally named `.svn` at the root would still be visited by the files loop. -/
def insideSvnDir : Path → Bool
  | a :: _ :: _ => a == ".svn"
  | _ => false

/-- A directory path that is the pruned root-level `.svn` directory or lies
inside it (its head component is `.svn`). Such directories are neither
traversed nor deleted by the walk. -/
def dirIsRootSvn : Path → Bool
  | a :: _ => a == ".svn"
  | _ => false

/-- Survivor predicate of the deletion pass of the portable mirror strategy
(lines 108-125 of the script): walking the working copy top-down, a file is
removed when `os.path.exists` fails for its counterpart under the source tree,
and a directory (with everything below it) is removed via `shutil.rmtree` when
its counterpart does not exist.  Because existence of a path in the source
implies existence of all its ancestor paths, a working-copy file survives the
pass exactly when it is inside the pruned root `.svn` directory or its own path
exists (as file or directory) in the source. -/
def survivesDeletion (src : FS) (p : Path) : Bool :=
  insideSvnDir p || existsPath src p

/-- Does a working-copy directory at path `q` survive the deletion pass (as a
directory object — possibly emptied, since `os.remove` and `shutil.rmtree`
remove its entries but never the directory itself when its source counterpart
exists)?  It survives exactly when the working copy has a directory at `q` and
either `q` lies in the pruned root `.svn` subtree (never visited, never
deleted) or every nonempty prefix of `q` exists in the source (otherwise the
shallowest nonexistent ancestor is `rmtree`d together with `q`). -/
def dirSurvivesDeletion (src wc : FS) (q : Path) : Bool :=
  hasDir wc q &&
    (dirIsRootSvn q || q.inits.all (fun r => r.isEmpty || existsPath src r))

/-- Destination path of the copy of the source file `p` in the copy pass
(lines 127-132).  `shutil.copy2(src, dst)` copies to `dst` itself when `dst`
is a file or absent, but when `dst` is an existing directory it copies INTO it
under the source file's basename.  The destination `wc/p` is a directory at
copy time exactly when the working copy had a directory at `p` that survived
the deletion pass (the pass empties such a directory whose source counterpart
is a file, but leaves the directory object in place), so the copy then lands
at `p ++ [basename p]`.  (Directories created by `os.makedirs` during the copy
pass sit at source directory paths, which are never source file paths in a
well-formed tree, so they cannot be a copy destination.) -/
def copyTarget (src wc : FS) (p : Path) : Path :=
  if dirSurvivesDeletion src wc p then p ++ [p.getLastD ""] else p

/-- Embedding of the portable mirror step of `main` (lines 105-132): first the
deletion pass removes everything the source does not have (except the root
`.svn` metadata), then the copy pass (lines 127-132) walks the source and
copies every file to its `copyTarget` — its own path, or inside a surviving
working-copy directory at that path — overwriting in place.  The result keeps
surviving working-copy files only at paths no copy lands on (an overwritten
file's content comes from the source), and takes all copied contents from the
source. -/
def mirrorPortable (src wc : FS) : FS :=
  src.map (fun e => (copyTarget src wc e.1, e.2))
    ++ wc.filter (fun e =>
        survivesDeletion src e.1
          && !src.any (fun s => copyTarget src wc s.1 == e.1))

/-- No source file path lies strictly below another source file path: true of
every source tree that exists on a real file system (a path cannot be both a
file and a directory). -/
def noNestedFiles (src : FS) : Bool :=
  src.all (fun s => !hasDir src s.1)

/-- No source file path is a directory path of the working copy.  When this
fails at a path `p`, the deletion pass leaves an emptied directory at `wc/p`
and the copy of source file `p` lands inside it at `p/basename(p)` instead of
at `p`. -/
def noSrcFileAtWcDir (src wc : FS) : Bool :=
  src.all (fun s => !hasDir wc s.1)

/-- One deletion operation issued by the deletion pass, tagged with the API the
script uses for it: `os.remove` for single files, `shutil.rmtree` with
`ignore_errors=True` for directories. -/
inductive DelOp where
  | removeFile (p : Path)
  | rmtree (p : Path)
deriving DecidableEq, Repr

/-- Nonempty prefixes of `q` (including `q` itself) all exist in the source:
this is exactly the condition under which the top-down `os.walk` reaches
directory `q` (ancestors that do not exist in the source were `rmtree`d when
their parent was visited, and `os.walk` then silently skips them), together
with the root-level `.svn` pruning. -/
def visitedDir (src : FS) (q : Path) : Bool :=
  !dirIsRootSvn q && q.inits.all (fun r => r.isEmpty || existsPath src r)

/-- Parent directory of a path (`os.walk` visits it before listing the entry). -/
def parentDir (p : Path) : Path := p.dropLast

/-- All directory paths of a tree: the nonempty proper prefixes of its file
paths, without duplicates. -/
def dirPathsOf (fs : FS) : List Path :=
  (fs.flatMap (fun e =>
    e.1.inits.filter (fun q => !q.isEmpty && decide (q.length < e.1.length)))).dedup

/-- The deletion operations issued by the deletion pass of the portable mirror
strategy (lines 108-125): for every visited directory, `os.remove` on each file
whose source counterpart does not exist, and `shutil.rmtree(
ignore_errors=True)` on each subdirectory whose source counterpart does not
exist (the root-level `.svn` subdirectory being pruned from the walk).  The
claims below only quantify over this list or pick concrete members, so the
interleaving order of the real walk is irrelevant and the operations are listed
files-first. -/
def deletionOps (src wc : FS) : List DelOp :=
  (wc.filter (fun e => visitedDir src (parentDir e.1) && !existsPath src e.1)).map
      (fun e => DelOp.removeFile e.1)
    ++ (dirPathsOf wc).filterMap (fun q =>
        if visitedDir src (parentDir q) && !dirIsRootSvn q && !existsPath src q then
          some (DelOp.rmtree q)
        else none)

/-- Executing one deletion operation when the paths in `gone` have already
vanished from the file system: `os.remove` on a missing target raises
`FileNotFoundError` (modelled as `Except.error`), while `shutil.rmtree` with
`ignore_errors=True` swallows every error, in particular a missing target. -/
def runDelOp (gone : List Path) : DelOp → Except Path Unit
  | DelOp.removeFile p => if gone.contains p then Except.error p else Except.ok ()
  | DelOp.rmtree _ => Except.ok ()

/-- Executing a list of deletion operations in order; the first raised error
aborts the pass (an uncaught exception terminates the script). -/
def runDelOps (gone : List Path) : List DelOp → Except Path Unit
  | [] => Except.ok ()
  | op :: ops =>
    match runDelOp gone op with
    | Except.error p => Except.error p
    | Except.ok _ => runDelOps gone ops

/-- No working-copy file sits at a path where the source has a directory but no
file.  On such a clash the real copy pass would fail (`os.makedirs` on a path
occupied by a file raises), so the post-mirror state only exists under this
compatibility condition; all mirror-completeness statements assume it. -/
def noClash (src wc : FS) : Bool :=
  wc.all (fun e => !hasDir src e.1 || hasFile src e.1)

/-- An XML element as produced by `xml.etree.ElementTree.fromstring`: a tag,
an attribute list (attribute keys are unique in XML; `get` reads the first
binding), and the list of child elements in document order. -/
inductive Xml where
  | elem (tag : String) (attrs : List (String × String)) (children : List Xml)
deriving Repr

/-- Tag of an element. -/
def Xml.tag : Xml → String
  | .elem t _ _ => t

/-- Attributes of an element. -/
def Xml.attrs : Xml → List (String × String)
  | .elem _ a _ => a

/-- Child elements of an element. -/
def Xml.children : Xml → List Xml
  | .elem _ _ c => c

/-- Embedding of `Element.get(key)`: the attribute value, if present. -/
def Xml.attr (x : Xml) (k : String) : Option String :=
  (x.attrs.find? (fun kv => kv.1 == k)).map (·.2)

mutual

/-- All strict descendants of an element in document order (pre-order). -/
def descendants : Xml → List Xml
  | .elem _ _ cs => descendantsList cs

/-- Descendants-or-self of each element of a list, in document order. -/
def descendantsList : List Xml → List Xml
  | [] => []
  | c :: cs => c :: (descendants c ++ descendantsList cs)

end

/-- Embedding of `root.findall(".//entry")`: every descendant element tagged
`entry`, in document order. -/
def findallEntries (root : Xml) : List Xml :=
  (descendants root).filter (fun e => e.tag == "entry")

/-- Embedding of `parse_missing_paths_from_svn_status_xml` (lines 35-48),
applied to the already-parsed XML document of `svn status --xml` (the
subprocess call and the raw text-to-XML parsing are modelled in `mainRun`).
For each `entry` descendant: take the first direct `wc-status` child if any,
read its `item` attribute (defaulting to the empty string), and when it equals
`"missing"` collect the entry's `path` attribute — the code guards with
`if path:`, so an absent or empty `path` attribute contributes nothing. -/
def parse_missing_paths_from_status_xml (root : Xml) : List String :=
  (findallEntries root).filterMap (fun entry =>
    match entry.children.find? (fun c => c.tag == "wc-status") with
    | some wcstatus =>
      if (wcstatus.attr "item").getD "" == "missing" then
        match entry.attr "path" with
        | some path => if path == "" then none else some path
        | none => none
      else none
    | none => none)

/-- Stated from the spec sentence "returns exactly the set of entry paths whose
wc-status item attribute equals the string missing": the `path` attributes of
all `entry` descendants whose first `wc-status` child carries
`item="missing"`, with no further filtering.  This is the comparison point for
the missing-filter exactness claim. -/
def missingEntryPathsSpec (root : Xml) : List String :=
  (findallEntries root).filterMap (fun entry =>
    match entry.children.find? (fun c => c.tag == "wc-status") with
    | some wcstatus =>
      if (wcstatus.attr "item").getD "" == "missing" then entry.attr "path"
      else none
    | none => none)

/-- Embedding of Python's `str.strip()` (used on the captured `svn status`
output): drop leading and trailing whitespace characters. -/
def pyStrip (s : String) : String :=
  ⟨((s.data.dropWhile Char.isWhitespace).reverse.dropWhile Char.isWhitespace).reverse⟩

/-- Embedding of `get_pending_status` (lines 50-54), applied to the captured
plain `svn status` text: the stripped text together with its Python truthiness
(`bool(text)`), i.e. whether the stripped text is non-empty. -/
def get_pending_status (raw : String) : String × Bool :=
  let text := pyStrip raw
  (text, !(text == ""))

/-- The `svn --version` probe run by `ensure_tool("svn")` (lines 20-26). -/
def svnVersionCmd : List String := ["svn", "--version"]

/-- The checkout command of `main` (lines 85-88): credentials flags are
appended exactly when both the username and the password are truthy
(environment variables are strings; an unset variable is modelled as the empty
string, which is falsy like Python's `None`). -/
def checkoutCmd (url dest username password : String) : List String :=
  ["svn", "checkout", url, dest, "--non-interactive", "--trust-server-cert"]
    ++ (if username ≠ "" ∧ password ≠ "" then
          ["--username", username, "--password", password, "--no-auth-cache"]
        else [])

/-- The update command (line 91). -/
def updateCmd : List String := ["svn", "update"]

/-- The Windows mirroring command (lines 99-103), run with `check=False`. -/
def robocopyCmd (src dest : String) : List String :=
  ["robocopy", src, dest, "/MIR", "/XD", ".svn", "/MT:8", "/R:2", "/W:2",
   "/NFL", "/NDL", "/NP"]

/-- The machine-readable status query (line 37). -/
def statusXmlCmd : List String := ["svn", "status", "--xml"]

/-- The forced remove scheduled for one missing path (line 138). -/
def rmCmd (p : String) : List String := ["svn", "rm", "--force", p]

/-- The broad recursive add (line 141). -/
def addCmd : List String :=
  ["svn", "add", "--force", ".", "--auto-props", "--parents", "--depth",
   "infinity", "--no-ignore"]

/-- The plain status query used for the commit decision (line 52). -/
def statusCmd : List String := ["svn", "status"]

/-- The commit command of `main` (lines 152-155), with the same credentials
coupling as the checkout command. -/
def commitCmd (msg username password : String) : List String :=
  ["svn", "commit", "-m", msg, "--non-interactive", "--trust-server-cert"]
    ++ (if username ≠ "" ∧ password ≠ "" then
          ["--username", username, "--password", password, "--no-auth-cache"]
        else [])

/-- The configuration `main` reads from the environment (lines 58-63).  An
unset environment variable is modelled as the empty string: Python's
`os.environ.get` returns `None` for it, and both `None` and `""` are falsy in
every test the script performs.  `default_message` stands for the
timestamped fallback commit message built on line 63. -/
structure Env where
  source_path : String
  svn_url : String
  svn_username : String
  svn_password : String
  commit_message : String
  default_message : String

/-- The commit message after the `or`-defaulting of lines 62-63. -/
def resolvedMsg (env : Env) : String :=
  if env.commit_message == "" then env.default_message else env.commit_message

/-- Behaviour of the external world during one run: which probes and commands
succeed, and the outputs the run captures.  `statusXmlParsed` is the result of
`xml.etree.ElementTree.fromstring` on the captured `svn status --xml` text
(`none` models a `ParseError`); `statusRaw` is the captured plain `svn status`
text; `wcRoot` is the timestamp-qualified working-copy directory name. -/
structure World where
  sourceExists : Bool
  svnOk : Bool
  isWindows : Bool
  wcRoot : String
  checkoutOk : Bool
  updateOk : Bool
  statusXmlCmdOk : Bool
  statusXmlParsed : Option Xml
  rmOk : String → Bool
  addOk : Bool
  statusCmdOk : Bool
  statusRaw : String
  commitOk : Bool

/-- An observable effect of the run: an executed external command (with its
working directory), the creation of the working-copy directory
(`os.makedirs`, line 81), or the in-process portable mirror step. -/
inductive Event where
  | exec (cmd : List String) (cwd : Option String)
  | mkdirWc (path : String)
  | portableMirror
deriving DecidableEq, Repr

/-- Terminal state of a run: normal return of `main`, or an abort
(`sys.exit(1)` or an uncaught exception from a failed `run(..., check=True)`,
a missing tool, or an XML parse error). -/
inductive Outcome where
  | success
  | fatal
deriving DecidableEq, Repr

/-- The loop of lines 136-138: schedule `svn rm --force` for each missing path
in order.  Each invocation is traced before its result is known; the first
failing invocation aborts the loop (second component `false`). -/
def runRms (rmOk : String → Bool) (wc : String) : List String → List Event × Bool
  | [] => ([], true)
  | p :: ps =>
    if rmOk p then
      let r := runRms rmOk wc ps
      (Event.exec (rmCmd p) (some wc) :: r.1, r.2)
    else ([Event.exec (rmCmd p) (some wc)], false)

/-- Embedding of `main` (lines 56-157) as a trace of observable events plus an
outcome.  The sequence follows the script: required-variable checks, source
existence check, `svn` availability probe, working-copy creation, checkout,
update, mirror (robocopy on Windows, the portable walk otherwise), status
parsing, forced removes, broad add, commit gating on the stripped status text,
and commit. -/
def mainRun (env : Env) (w : World) : List Event × Outcome :=
  if env.source_path == "" then ([], Outcome.fatal)
  else if env.svn_url == "" then ([], Outcome.fatal)
  else if !w.sourceExists then ([], Outcome.fatal)
  else
    let t0 : List Event := [Event.exec svnVersionCmd none]
    if !w.svnOk then (t0, Outcome.fatal)
    else
      let wc := w.wcRoot
      let t2 := t0 ++ [Event.mkdirWc wc,
        Event.exec (checkoutCmd env.svn_url wc env.svn_username env.svn_password) none]
      if !w.checkoutOk then (t2, Outcome.fatal)
      else
        let t3 := t2 ++ [Event.exec updateCmd (some wc)]
        if !w.updateOk then (t3, Outcome.fatal)
        else
          let t4 := t3 ++ (if w.isWindows then
              [Event.exec (robocopyCmd env.source_path wc) none]
            else [Event.portableMirror])
          let t5 := t4 ++ [Event.exec statusXmlCmd (some wc)]
          if !w.statusXmlCmdOk then (t5, Outcome.fatal)
          else
            match w.statusXmlParsed with
            | none => (t5, Outcome.fatal)
            | some xmlRoot =>
              let missing := parse_missing_paths_from_status_xml xmlRoot
              let rmRes := runRms w.rmOk wc missing
              let t6 := t5 ++ rmRes.1
              if !rmRes.2 then (t6, Outcome.fatal)
              else
                let t7 := t6 ++ [Event.exec addCmd (some wc)]
                if !w.addOk then (t7, Outcome.fatal)
                else
                  let t8 := t7 ++ [Event.exec statusCmd (some wc)]
                  if !w.statusCmdOk then (t8, Outcome.fatal)
                  else
                    let st := get_pending_status w.statusRaw
                    if !st.2 then (t8, Outcome.success)
                    else
                      let t9 := t8 ++ [Event.exec
                        (commitCmd (resolvedMsg env) env.svn_username env.svn_password)
                        (some wc)]
                      if !w.commitOk then (t9, Outcome.fatal)
                      else (t9, Outcome.success)

/-- Is this event an executed `svn commit`? -/
def isCommitEvent : Event → Bool
  | Event.exec c _ => c.take 2 == ["svn", "commit"]
  | _ => false

/-- Number of commit invocations in a trace. -/
def commitCount (tr : List Event) : Nat :=
  tr.countP isCommitEvent

/-- Does this deletion operation still find its target, given the set of
already-vanished paths?  `rmtree` operations never care (errors ignored). -/
def delTargetPresent (gone : List Path) : DelOp → Bool
  | DelOp.removeFile p => !gone.contains p
  | DelOp.rmtree _ => true

/-- The events every run performs between passing the precondition checks and
reaching the XML status parsing: tool probe, working-copy creation, checkout,
update, the platform-selected mirror step, and the `svn status --xml` query. -/
def preEvents (env : Env) (w : World) : List Event :=
  [Event.exec svnVersionCmd none, Event.mkdirWc w.wcRoot,
   Event.exec (checkoutCmd env.svn_url w.wcRoot env.svn_username env.svn_password) none,
   Event.exec updateCmd (some w.wcRoot)]
    ++ (if w.isWindows then [Event.exec (robocopyCmd env.source_path w.wcRoot) none]
        else [Event.portableMirror])
    ++ [Event.exec statusXmlCmd (some w.wcRoot)]

/-- The events following the broad add in a run whose forced removes all
succeeded: the plain status query and, when it succeeds and reports pending
changes, the commit. -/
def tailEvents (env : Env) (w : World) : List Event :=
  if !w.addOk then []
  else Event.exec statusCmd (some w.wcRoot) ::
    (if !w.statusCmdOk then []
     else if !(get_pending_status w.statusRaw).2 then []
     else [Event.exec (commitCmd (resolvedMsg env) env.svn_username env.svn_password)
        (some w.wcRoot)])

/-- The outcome of a run that reached the broad add step. -/
def tailOutcome (w : World) : Outcome :=
  if !w.addOk then Outcome.fatal
  else if !w.statusCmdOk then Outcome.fatal
  else if !(get_pending_status w.statusRaw).2 then Outcome.success
  else if !w.commitOk then Outcome.fatal
  else Outcome.success

/-- A sample configuration used by the concrete witnesses. -/
def envSample : Env :=
  { source_path := "Build/Export", svn_url := "https://svn.example/repo"
    svn_username := "", svn_password := "", commit_message := ""
    default_message := "Automated sync" }

/-- A sample parsed `svn status --xml` document with one `missing` entry and
one `unversioned` entry. -/
def xmlSample : Xml :=
  .elem "status" [] [.elem "target" []
    [.elem "entry" [("path", "old.txt")] [.elem "wc-status" [("item", "missing")] []],
     .elem "entry" [("path", "new.txt")] [.elem "wc-status" [("item", "unversioned")] []]]]

/-- A sample world in which every stage succeeds and the final status reports
pending changes. -/
def worldSample : World :=
  { sourceExists := true, svnOk := true, isWindows := false, wcRoot := "/tmp/svn-wc"
    checkoutOk := true, updateOk := true, statusXmlCmdOk := true
    statusXmlParsed := some xmlSample, rmOk := fun _ => true, addOk := true
    statusCmdOk := true, statusRaw := "M  a.txt\n", commitOk := true }

/-!  Helper lemmas about the file-tree model.  -/

theorem hasFile_eq_true_iff {fs : FS} {p : Path} :
    hasFile fs p = true ↔ ∃ e ∈ fs, e.1 = p := by
  simp [hasFile, List.any_eq_true]

theorem hasFile_of_mem {fs : FS} {e : Path × String} (h : e ∈ fs) :
    hasFile fs e.1 = true :=
  hasFile_eq_true_iff.mpr ⟨e, h, rfl⟩

theorem hasDir_eq_true_iff {fs : FS} {q : Path} :
    hasDir fs q = true ↔ ∃ e ∈ fs, underDir q e.1 = true := by
  simp [hasDir, List.any_eq_true]

theorem underDir_eq_true_iff {q p : Path} :
    underDir q p = true ↔ q <+: p ∧ q.length < p.length := by
  simp [underDir, List.isPrefixOf_iff_prefix]

theorem underDir_trans_right {q p r : Path} (h1 : underDir q p = true)
    (h2 : underDir p r = true) : underDir q r = true := by
  rw [underDir_eq_true_iff] at h1 h2 ⊢
  exact ⟨h1.1.trans h2.1, Nat.lt_trans h1.2 h2.2⟩

/-- If something exists in the source at `p`, then every proper ancestor of `p`
is a directory of the source. -/
theorem hasDir_of_underDir {src : FS} {q p : Path} (hqp : underDir q p = true)
    (hp : existsPath src p = true) : hasDir src q = true := by
  rcases Bool.or_eq_true_iff.mp hp with hf | hd
  · obtain ⟨e, he, hep⟩ := hasFile_eq_true_iff.mp hf
    exact hasDir_eq_true_iff.mpr ⟨e, he, hep ▸ hqp⟩
  · obtain ⟨e, he, hue⟩ := hasDir_eq_true_iff.mp hd
    exact hasDir_eq_true_iff.mpr ⟨e, he, underDir_trans_right hqp hue⟩

/-- A file strictly inside the root `.svn` directory has its parent directory
inside (or equal to) the pruned root `.svn` directory. -/
theorem dirIsRootSvn_parent_of_inside {p : Path} (h : insideSvnDir p = true) :
    dirIsRootSvn (parentDir p) = true := by
  cases p with
  | nil => simp [insideSvnDir] at h
  | cons a t =>
    cases t with
    | nil => simp [insideSvnDir] at h
    | cons b r =>
      have ha : (a == ".svn") = true := by simpa [insideSvnDir] using h
      rw [parentDir, List.dropLast_cons₂]
      simpa [dirIsRootSvn] using ha

/-- A nonempty prefix of a path inside the root `.svn` directory starts with
`.svn` itself. -/
theorem dirIsRootSvn_of_prefix_inside {q p : Path} (h : insideSvnDir p = true)
    (hq : q <+: p) (hne : q ≠ []) : dirIsRootSvn q = true := by
  cases p with
  | nil => simp [insideSvnDir] at h
  | cons a t =>
    cases t with
    | nil => simp [insideSvnDir] at h
    | cons b r =>
      have ha : (a == ".svn") = true := by simpa [insideSvnDir] using h
      cases q with
      | nil => exact absurd rfl hne
      | cons c q2 =>
        obtain ⟨t2, ht⟩ := hq
        have hca : c = a := by
          have := congrArg (fun l => l.head?) ht
          simpa using this
        rw [dirIsRootSvn, hca]
        exact ha

theorem underDir_append_last {p : Path} {x : String} :
    underDir p (p ++ [x]) = true :=
  underDir_eq_true_iff.mpr ⟨List.prefix_append p [x], by simp⟩

theorem any_congr_on {α : Type} (l : List α) (f g : α → Bool)
    (h : ∀ x ∈ l, f x = g x) : l.any f = l.any g := by
  induction l with
  | nil => rfl
  | cons a t ih =>
    rw [List.any_cons, List.any_cons, h a (List.mem_cons_self a t),
      ih (fun x hx => h x (List.mem_cons_of_mem a hx))]

/-- When no source file path is a working-copy directory path, every copy
lands at the source file's own path. -/
theorem copyTarget_eq_self {src wc : FS} (h2 : noSrcFileAtWcDir src wc = true)
    {e : Path × String} (he : e ∈ src) : copyTarget src wc e.1 = e.1 := by
  have hnd : hasDir wc e.1 = false := by
    have := List.all_eq_true.mp h2 e he
    simpa using this
  rw [copyTarget, dirSurvivesDeletion, hnd]
  simp

/-- When no source file path is a working-copy directory path, the mirror is
the source files followed by the surviving, non-overwritten working-copy
files. -/
theorem mirrorPortable_eq_of_no_dir_clash {src wc : FS}
    (h2 : noSrcFileAtWcDir src wc = true) :
    mirrorPortable src wc =
      src ++ wc.filter (fun e => survivesDeletion src e.1
        && !src.any (fun s => copyTarget src wc s.1 == e.1)) := by
  rw [mirrorPortable]
  congr 1
  have hid : ∀ e ∈ src, (copyTarget src wc e.1, e.2) = id e := by
    intro e he
    rw [copyTarget_eq_self h2 he]
    rfl
  rw [List.map_congr_left hid, List.map_id]

/-- Mirroring does not change which source file paths carry a surviving
working-copy directory, provided no source file path lies below another
(true of every real source tree). -/
theorem dirSurvives_mirror_stable {src wc : FS}
    (hsrc : noNestedFiles src = true) {p : Path} (hp : hasFile src p = true) :
    dirSurvivesDeletion src (mirrorPortable src wc) p =
      dirSurvivesDeletion src wc p := by
  cases hC : (dirIsRootSvn p
      || p.inits.all (fun r => r.isEmpty || existsPath src r)) with
  | false =>
    rw [dirSurvivesDeletion, dirSurvivesDeletion, hC, Bool.and_false,
      Bool.and_false]
  | true =>
    rw [dirSurvivesDeletion, dirSurvivesDeletion, hC, Bool.and_true,
      Bool.and_true]
    cases hwc : hasDir wc p with
    | true =>
      obtain ⟨e0, he0, he0p⟩ := hasFile_eq_true_iff.mp hp
      have hds : dirSurvivesDeletion src wc e0.1 = true := by
        rw [dirSurvivesDeletion, he0p, hwc, hC]
        rfl
      have hmem : (copyTarget src wc e0.1, e0.2) ∈ mirrorPortable src wc := by
        rw [mirrorPortable]
        exact List.mem_append_left _ (List.mem_map.mpr ⟨e0, he0, rfl⟩)
      have htgt : copyTarget src wc e0.1 = p ++ [p.getLastD ""] := by
        rw [copyTarget, if_pos hds, he0p]
      apply hasDir_eq_true_iff.mpr
      exact ⟨(copyTarget src wc e0.1, e0.2), hmem,
        by rw [htgt]; exact underDir_append_last⟩
    | false =>
      rw [Bool.eq_false_iff]
      intro hM
      obtain ⟨m, hm, hum⟩ := hasDir_eq_true_iff.mp hM
      rw [mirrorPortable] at hm
      rcases List.mem_append.mp hm with hsm | hkm
      · obtain ⟨s, hs, hsm2⟩ := List.mem_map.mp hsm
        subst hsm2
        have hum2 : underDir p (copyTarget src wc s.1) = true := hum
        cases hds : dirSurvivesDeletion src wc s.1 with
        | false =>
          rw [copyTarget, if_neg (by simp [hds])] at hum2
          have hdp : hasDir src p = true := hasDir_eq_true_iff.mpr ⟨s, hs, hum2⟩
          obtain ⟨e0, he0, he0p⟩ := hasFile_eq_true_iff.mp hp
          have hnn := List.all_eq_true.mp hsrc e0 he0
          rw [he0p, hdp] at hnn
          simp at hnn
        | true =>
          rw [copyTarget, if_pos hds] at hum2
          rw [underDir_eq_true_iff] at hum2
          obtain ⟨hpre, hlen⟩ := hum2
          have hle : p.length ≤ s.1.length := by
            have hl1 : (s.1 ++ [s.1.getLastD ""]).length = s.1.length + 1 := by
              simp
            rw [hl1] at hlen
            exact Nat.lt_succ_iff.mp hlen
          have hps : p <+: s.1 :=
            List.prefix_of_prefix_length_le hpre (List.prefix_append s.1 _) hle
          rcases Nat.lt_or_ge p.length s.1.length with hlt | hge
          · have hu : underDir p s.1 = true := underDir_eq_true_iff.mpr ⟨hps, hlt⟩
            have hdp : hasDir src p = true := hasDir_eq_true_iff.mpr ⟨s, hs, hu⟩
            obtain ⟨e0, he0, he0p⟩ := hasFile_eq_true_iff.mp hp
            have hnn := List.all_eq_true.mp hsrc e0 he0
            rw [he0p, hdp] at hnn
            simp at hnn
          · have heq : p = s.1 := hps.eq_of_length (Nat.le_antisymm hle hge)
            have hd : hasDir wc s.1 = true := by
              have hds2 := hds
              rw [dirSurvivesDeletion, Bool.and_eq_true] at hds2
              exact hds2.1
            rw [← heq] at hd
            rw [hd] at hwc
            exact Bool.noConfusion hwc
      · have hmw := (List.mem_filter.mp hkm).1
        have hd : hasDir wc p = true := hasDir_eq_true_iff.mpr ⟨m, hmw, hum⟩
        rw [hd] at hwc
        exact Bool.noConfusion hwc

/-- The copy target of every source file is unchanged when mirroring again
over the mirrored working copy. -/
theorem copyTarget_mirror_stable {src wc : FS}
    (hsrc : noNestedFiles src = true) {p : Path} (hp : hasFile src p = true) :
    copyTarget src (mirrorPortable src wc) p = copyTarget src wc p := by
  rw [copyTarget, copyTarget, dirSurvives_mirror_stable hsrc hp]

/-!  Claim theorems about the portable mirror strategy.  -/

/-- Counterexample for C1: source tree with the single file `a`, working copy
with the single file `a/x` — `noClash` holds, the real mirror step completes
without error, yet the source file `a` does not end up at working-copy path
`a`.  The deletion pass keeps the directory `a` (its source counterpart
exists) but empties it, and `shutil.copy2` then copies INTO the surviving
directory, landing the content at `a/a`.  So mirror completeness fails as
stated. -/
theorem mirror_not_complete_at_dir_clash :
    noClash [(["a"], "A")] [(["a", "x"], "X")] = true ∧
    hasFile [(["a"], "A")] ["a"] = true ∧
    mirrorPortable [(["a"], "A")] [(["a", "x"], "X")] = [(["a", "a"], "A")] ∧
    lookupFS (mirrorPortable [(["a"], "A")] [(["a", "x"], "X")]) ["a"] = none ∧
    hasFile (mirrorPortable [(["a"], "A")] [(["a", "x"], "X")]) ["a"] = false :=
  ⟨by decide, by decide, by decide, by decide, by decide⟩

/-- C1 (amended): after the portable mirror step, every source file is present
at its own working-copy path with the source content, and every file that
existed only in the working copy (outside the root `.svn` metadata directory)
is gone — provided no path is a file in one tree and a directory in the other:
`noClash` rules out working-copy files at source directory paths (there the
real copy pass raises in `os.makedirs` instead of completing), and
`noSrcFileAtWcDir` rules out source files at working-copy directory paths
(there the copy lands inside the surviving emptied directory, at
`p/basename(p)` instead of `p`, as the counterexample shows). -/
theorem mirror_completeness (src wc : FS) (h : noClash src wc = true)
    (h2 : noSrcFileAtWcDir src wc = true) :
    (∀ p, hasFile src p = true →
      lookupFS (mirrorPortable src wc) p = lookupFS src p) ∧
    (∀ p, hasFile wc p = true → hasFile src p = false → insideSvnDir p = false →
      hasFile (mirrorPortable src wc) p = false) := by
  rw [mirrorPortable_eq_of_no_dir_clash h2]
  constructor
  · intro p hp
    have hsome : (src.find? (fun e => e.1 == p)).isSome := by
      rw [List.find?_isSome]
      obtain ⟨e, he, hep⟩ := hasFile_eq_true_iff.mp hp
      exact ⟨e, he, by simp [hep]⟩
    obtain ⟨e, he⟩ := Option.isSome_iff_exists.mp hsome
    simp [lookupFS, List.find?_append, he]
  · intro p hwc hsrc hsvn
    rw [hasFile, List.any_append]
    have hkept : (wc.filter (fun e => survivesDeletion src e.1
        && !src.any (fun s => copyTarget src wc s.1 == e.1))).any
          (fun e => e.1 == p) = false := by
      rw [Bool.eq_false_iff]
      intro hany
      obtain ⟨e, he, hep⟩ := List.any_eq_true.mp hany
      have hep : e.1 = p := by simpa using hep
      have hmem := List.mem_filter.mp he
      have hpred := hmem.2
      rw [Bool.and_eq_true] at hpred
      have hsurv := hpred.1
      rw [survivesDeletion, hep, hsvn, Bool.false_or, existsPath, hsrc,
        Bool.false_or] at hsurv
      have hcl := List.all_eq_true.mp h e hmem.1
      rw [hep, hsurv, hsrc] at hcl
      simp at hcl
    rw [hasFile] at hsrc
    rw [hsrc, hkept]
    rfl

/-- Counterexample for C8: at a source file `a` over a working copy holding
`a/x`, the second mirror run is not deletion-free: the first run left the
copy of `a` inside the surviving directory at `a/a`, and the second run's
deletion pass issues `os.remove` for `a/a` (its source counterpart does not
exist) before the copy pass re-creates it.  So "the second mirror performs no
deletions / no further filesystem changes" fails as stated, even though the
net tree is unchanged. -/
theorem second_mirror_deletes_at_dir_clash :
    mirrorPortable [(["a"], "A")] [(["a", "x"], "X")] = [(["a", "a"], "A")] ∧
    deletionOps [(["a"], "A")]
      (mirrorPortable [(["a"], "A")] [(["a", "x"], "X")]) =
      [DelOp.removeFile ["a", "a"]] ∧
    mirrorPortable [(["a"], "A")]
      (mirrorPortable [(["a"], "A")] [(["a", "x"], "X")]) =
      mirrorPortable [(["a"], "A")] [(["a", "x"], "X")] :=
  ⟨by decide, by decide, by decide⟩

/-- C8 (amended): with an unchanged source, the second mirror run leaves the
working-copy tree identical (shown for sources in which no file path lies
below another file path, true of every real tree).  But the second run is
deletion-free only when additionally no source file path is a working-copy
directory path; otherwise the stray copy inside such a surviving directory is
deleted and re-copied on every run (see the counterexample), with unchanged
net result. -/
theorem mirror_idempotent (src wc : FS) (hsrc : noNestedFiles src = true) :
    mirrorPortable src (mirrorPortable src wc) = mirrorPortable src wc ∧
    (noSrcFileAtWcDir src wc = true →
      deletionOps src (mirrorPortable src wc) = []) := by
  have unfold_outer : ∀ w2 : FS, mirrorPortable src w2 =
      src.map (fun e => (copyTarget src w2 e.1, e.2))
        ++ w2.filter (fun e => survivesDeletion src e.1
            && !src.any (fun s => copyTarget src w2 s.1 == e.1)) :=
    fun w2 => rfl
  constructor
  · rw [unfold_outer (mirrorPortable src wc)]
    have hmap : src.map
        (fun e => (copyTarget src (mirrorPortable src wc) e.1, e.2))
        = src.map (fun e => (copyTarget src wc e.1, e.2)) :=
      List.map_congr_left (fun e he => by
        rw [copyTarget_mirror_stable hsrc (hasFile_of_mem he)])
    have hpredeq : ∀ e ∈ mirrorPortable src wc,
        (survivesDeletion src e.1 && !src.any
          (fun s => copyTarget src (mirrorPortable src wc) s.1 == e.1))
        = (survivesDeletion src e.1 && !src.any
          (fun s => copyTarget src wc s.1 == e.1)) := by
      intro e he
      rw [any_congr_on src _ _ (fun s hs => by
        rw [copyTarget_mirror_stable hsrc (hasFile_of_mem hs)])]
    rw [hmap, List.filter_congr hpredeq]
    conv_lhs => rw [unfold_outer wc]
    conv_rhs => rw [unfold_outer wc]
    rw [List.filter_append]
    have hsrcnil : (src.map (fun e => (copyTarget src wc e.1, e.2))).filter
        (fun e => survivesDeletion src e.1
          && !src.any (fun s => copyTarget src wc s.1 == e.1)) = [] := by
      rw [List.filter_eq_nil_iff]
      intro m hm
      obtain ⟨s, hs, hsm⟩ := List.mem_map.mp hm
      subst hsm
      have hany : src.any
          (fun u => copyTarget src wc u.1 == (copyTarget src wc s.1, s.2).1)
          = true :=
        List.any_eq_true.mpr ⟨s, hs, by simp⟩
      rw [hany]
      simp
    have hK : (wc.filter (fun e => survivesDeletion src e.1
        && !src.any (fun s => copyTarget src wc s.1 == e.1))).filter
        (fun e => survivesDeletion src e.1
          && !src.any (fun s => copyTarget src wc s.1 == e.1))
        = wc.filter (fun e => survivesDeletion src e.1
          && !src.any (fun s => copyTarget src wc s.1 == e.1)) :=
      List.filter_eq_self.mpr (fun e he => (List.mem_filter.mp he).2)
    rw [hsrcnil, hK]
    rfl
  · intro h2
    have hid := mirrorPortable_eq_of_no_dir_clash h2
    rw [deletionOps, List.append_eq_nil]
    constructor
    · rw [List.map_eq_nil_iff, List.filter_eq_nil_iff]
      intro e he
      rw [hid] at he
      rcases List.mem_append.mp he with hs | hk
      · have : existsPath src e.1 = true := by
          rw [existsPath, hasFile_of_mem hs, Bool.true_or]
        simp [this]
      · have hpred := (List.mem_filter.mp hk).2
        rw [Bool.and_eq_true] at hpred
        rcases Bool.or_eq_true_iff.mp hpred.1 with hin | hex
        · simp [visitedDir, dirIsRootSvn_parent_of_inside hin]
        · simp [hex]
    · rw [List.filterMap_eq_nil_iff]
      intro q hq
      obtain ⟨e, he, hqe⟩ := List.mem_flatMap.mp (List.mem_dedup.mp hq)
      have hqe2 := List.mem_filter.mp hqe
      have hqpre : q <+: e.1 := (List.mem_inits _ _).mp hqe2.1
      have hqlen := hqe2.2
      rw [Bool.and_eq_true] at hqlen
      have hlt : q.length < e.1.length := by
        have := hqlen.2
        simpa using this
      have hunder : underDir q e.1 = true :=
        underDir_eq_true_iff.mpr ⟨hqpre, hlt⟩
      have hqne : q ≠ [] := by
        intro hq0
        have := hqlen.1
        rw [hq0] at this
        simp at this
      rw [hid] at he
      rcases List.mem_append.mp he with hs | hk
      · have : existsPath src e.1 = true := by
          rw [existsPath, hasFile_of_mem hs, Bool.true_or]
        have hd := hasDir_of_underDir hunder this
        have : existsPath src q = true := by
          rw [existsPath, hd, Bool.or_true]
        simp [this]
      · have hpred := (List.mem_filter.mp hk).2
        rw [Bool.and_eq_true] at hpred
        rcases Bool.or_eq_true_iff.mp hpred.1 with hin | hex
        · simp [dirIsRootSvn_of_prefix_inside hin hqpre hqne]
        · have hd := hasDir_of_underDir hunder hex
          have : existsPath src q = true := by
            rw [existsPath, hd, Bool.or_true]
          simp [this]

/-- Witness for the amended C8 at a concrete source and working copy with no
file-versus-directory clash: the second mirror is the identity and issues no
deletions. -/
theorem mirror_idempotent_witness :
    noNestedFiles [(["a.txt"], "A"), (["sub", "b.txt"], "B")] = true ∧
    noSrcFileAtWcDir [(["a.txt"], "A"), (["sub", "b.txt"], "B")]
      [(["old.txt"], "O"), (["a.txt"], "OLD")] = true ∧
    mirrorPortable [(["a.txt"], "A"), (["sub", "b.txt"], "B")]
      (mirrorPortable [(["a.txt"], "A"), (["sub", "b.txt"], "B")]
        [(["old.txt"], "O"), (["a.txt"], "OLD")]) =
      mirrorPortable [(["a.txt"], "A"), (["sub", "b.txt"], "B")]
        [(["old.txt"], "O"), (["a.txt"], "OLD")] ∧
    deletionOps [(["a.txt"], "A"), (["sub", "b.txt"], "B")]
      (mirrorPortable [(["a.txt"], "A"), (["sub", "b.txt"], "B")]
        [(["old.txt"], "O"), (["a.txt"], "OLD")]) = [] :=
  ⟨by decide, by decide,
   (mirror_idempotent _ _ (by decide)).1,
   (mirror_idempotent _ _ (by decide)).2 (by decide)⟩

/-!  Claim theorems about the deletion pass error handling.  -/

/-- Counterexample for C4: with an empty source tree and a working copy holding
the single file `old.txt`, the deletion pass issues a plain `os.remove` for
`old.txt`; if that target has vanished in the meantime, the operation raises
(`FileNotFoundError`) and the error is NOT swallowed — the pass aborts.  This
refutes the claim that every delete target of the pass swallows missing-target
errors. -/
theorem single_file_delete_error_not_swallowed :
    deletionOps [] [(["old.txt"], "x")] = [DelOp.removeFile ["old.txt"]] ∧
    runDelOps [["old.txt"]] (deletionOps [] [(["old.txt"], "x")]) =
      Except.error ["old.txt"] := by
  constructor
  · decide
  · rfl

/-- A deletion pass succeeds whenever every `os.remove` target is still
present, no matter which `rmtree` targets are missing. -/
theorem runDelOps_ok_of_file_targets_present (gone : List Path)
    (ops : List DelOp) (h : ∀ op ∈ ops, delTargetPresent gone op = true) :
    runDelOps gone ops = Except.ok () := by
  induction ops with
  | nil => rfl
  | cons op ops ih =>
    have hop := h op (List.mem_cons_self op ops)
    have htail : ∀ o ∈ ops, delTargetPresent gone o = true := fun o ho =>
      h o (List.mem_cons_of_mem op ho)
    cases op with
    | removeFile p =>
      have : gone.contains p = false := by
        rw [delTargetPresent] at hop
        simpa using hop
      rw [runDelOps, runDelOp, this]
      exact ih htail
    | rmtree p =>
      rw [runDelOps, runDelOp]
      exact ih htail

/-- C4 (amended): in the portable mirror strategy's deletion pass, only the
recursive directory removals are best-effort — `shutil.rmtree` is called with
`ignore_errors=True`, so a missing directory target is swallowed; the
single-file removals use plain `os.remove`, whose missing-target error is not
caught.  Hence the pass completes whenever every single-file target is still
present, regardless of which directory targets have vanished. -/
theorem deletion_pass_tolerates_missing_dir_targets (src wc : FS)
    (gone : List Path)
    (h : (deletionOps src wc).all (delTargetPresent gone) = true) :
    runDelOps gone (deletionOps src wc) = Except.ok () :=
  runDelOps_ok_of_file_targets_present gone (deletionOps src wc)
    (List.all_eq_true.mp h)

/-- Witness for the amended C4: a concrete pass whose only operation is the
directory removal of `d`, executed while `d` is already gone — the pass still
succeeds. -/
theorem deletion_pass_tolerates_missing_dir_targets_witness :
    (deletionOps [] [(["d", "f"], "x")]).all (delTargetPresent [["d"]]) = true ∧
    runDelOps [["d"]] (deletionOps [] [(["d", "f"], "x")]) = Except.ok () :=
  ⟨by decide, deletion_pass_tolerates_missing_dir_targets [] [(["d", "f"], "x")]
    [["d"]] (by decide)⟩

/-- Witness for the amended C1 at a concrete source and working copy: the
source files `a.txt` and `sub/b.txt` are mirrored with their contents, and the
leftover working-copy file `old.txt` is removed. -/
theorem mirror_completeness_witness :
    noClash [(["a.txt"], "A"), (["sub", "b.txt"], "B")]
      [(["old.txt"], "O"), (["a.txt"], "OLD")] = true ∧
    noSrcFileAtWcDir [(["a.txt"], "A"), (["sub", "b.txt"], "B")]
      [(["old.txt"], "O"), (["a.txt"], "OLD")] = true ∧
    lookupFS (mirrorPortable [(["a.txt"], "A"), (["sub", "b.txt"], "B")]
      [(["old.txt"], "O"), (["a.txt"], "OLD")]) ["a.txt"] =
      lookupFS [(["a.txt"], "A"), (["sub", "b.txt"], "B")] ["a.txt"] ∧
    hasFile (mirrorPortable [(["a.txt"], "A"), (["sub", "b.txt"], "B")]
      [(["old.txt"], "O"), (["a.txt"], "OLD")]) ["old.txt"] = false :=
  ⟨by decide, by decide,
   (mirror_completeness _ _ (by decide) (by decide)).1 ["a.txt"] (by decide),
   (mirror_completeness _ _ (by decide) (by decide)).2 ["old.txt"] (by decide)
     (by decide) (by decide)⟩

/-!  Claim theorems about the status-XML missing filter.  -/

/-- Counterexample for C5: an `entry` whose `wc-status` item is `missing` but
whose `path` attribute is the empty string.  The spec-level set of entry paths
with item `missing` is `[""]`, yet the parser returns the empty list, because
the code's `if path:` guard drops a falsy (absent or empty) path attribute.
So the parser does not return exactly the set of entry paths tagged
`missing`. -/
theorem missing_filter_drops_empty_path :
    parse_missing_paths_from_status_xml (Xml.elem "status" []
      [Xml.elem "target" [] [Xml.elem "entry" [("path", "")]
        [Xml.elem "wc-status" [("item", "missing")] []]]]) = [] ∧
    missingEntryPathsSpec (Xml.elem "status" []
      [Xml.elem "target" [] [Xml.elem "entry" [("path", "")]
        [Xml.elem "wc-status" [("item", "missing")] []]]]) = [""] := by
  constructor
  · decide
  · decide

/-- C5 (amended): the parser returns exactly the non-empty `path` attributes of
the `entry` elements whose first `wc-status` child carries `item="missing"`;
equivalently, the spec-level missing set with empty path attributes filtered
out.  In particular an entry with any other item-state is never returned. -/
theorem missing_filter_exactness (root : Xml) :
    parse_missing_paths_from_status_xml root =
      (missingEntryPathsSpec root).filter (fun p => !(p == "")) := by
  rw [parse_missing_paths_from_status_xml, missingEntryPathsSpec,
    List.filter_filterMap]
  congr 1
  funext entry
  cases hfind : entry.children.find? (fun c => c.tag == "wc-status") with
  | none => simp [hfind]
  | some w =>
    by_cases hitem : ((w.attr "item").getD "" == "missing") = true
    · cases hpath : entry.attr "path" with
      | none => simp [hfind, hitem, hpath, Option.filter]
      | some path =>
        by_cases hp : (path == "") = true
        · simp [hfind, hitem, hpath, hp, Option.filter]
        · simp [hfind, hitem, hpath, hp, Option.filter]
    · simp [hfind, hitem, Option.filter]

/-!  Helper lemmas about the orchestrator model.  -/

/-- When every scheduled forced remove succeeds, the remove loop traces one
`svn rm --force` invocation per missing path, in order, and reports success. -/
theorem runRms_eq_map (rmOk : String → Bool) (wc : String) (ps : List String)
    (h : ∀ p ∈ ps, rmOk p = true) :
    runRms rmOk wc ps =
      (ps.map (fun p => Event.exec (rmCmd p) (some wc)), true) := by
  induction ps with
  | nil => rfl
  | cons p ps ih =>
    rw [runRms, if_pos (h p (List.mem_cons_self p ps)),
      ih (fun q hq => h q (List.mem_cons_of_mem p hq))]
    rfl

/-- Shape of every run that reaches the reconciliation steps with a parseable
status document and successful forced removes: the trace is the fixed prefix,
then one forced remove per missing path, then the broad add, then the
gating-dependent tail. -/
theorem mainRun_reach (env : Env) (w : World) (x : Xml)
    (h1 : env.source_path ≠ "") (h2 : env.svn_url ≠ "")
    (h3 : w.sourceExists = true) (h4 : w.svnOk = true)
    (h5 : w.checkoutOk = true) (h6 : w.updateOk = true)
    (h7 : w.statusXmlCmdOk = true) (h8 : w.statusXmlParsed = some x)
    (h9 : ∀ p ∈ parse_missing_paths_from_status_xml x, w.rmOk p = true) :
    mainRun env w =
      (preEvents env w
        ++ (parse_missing_paths_from_status_xml x).map
            (fun p => Event.exec (rmCmd p) (some w.wcRoot))
        ++ Event.exec addCmd (some w.wcRoot) :: tailEvents env w,
       tailOutcome w) := by
  rw [mainRun]
  simp only [h3, h4, h5, h6, h7, h8, runRms_eq_map w.rmOk w.wcRoot _ h9,
    preEvents, tailEvents, tailOutcome, beq_iff_eq, if_neg h1, if_neg h2,
    Bool.not_true, Bool.false_eq_true, if_false]
  cases hA : w.addOk with
  | false => simp [hA]
  | true =>
    cases hS : w.statusCmdOk with
    | false => simp [hS]
    | true =>
      cases hP : (get_pending_status w.statusRaw).2 with
      | false => simp [hP]
      | true =>
        cases hC : w.commitOk with
        | false => simp [hC, hP]
        | true => simp [hC, hP]

theorem isCommit_version (cwd : Option String) :
    isCommitEvent (Event.exec svnVersionCmd cwd) = false := rfl

theorem isCommit_mkdir (p : String) : isCommitEvent (Event.mkdirWc p) = false := rfl

theorem isCommit_checkout (a b c d : String) (cwd : Option String) :
    isCommitEvent (Event.exec (checkoutCmd a b c d) cwd) = false := rfl

theorem isCommit_update (cwd : Option String) :
    isCommitEvent (Event.exec updateCmd cwd) = false := rfl

theorem isCommit_robocopy (a b : String) (cwd : Option String) :
    isCommitEvent (Event.exec (robocopyCmd a b) cwd) = false := rfl

theorem isCommit_portable : isCommitEvent Event.portableMirror = false := rfl

theorem isCommit_statusXml (cwd : Option String) :
    isCommitEvent (Event.exec statusXmlCmd cwd) = false := rfl

theorem isCommit_rm (p : String) (cwd : Option String) :
    isCommitEvent (Event.exec (rmCmd p) cwd) = false := rfl

theorem isCommit_add (cwd : Option String) :
    isCommitEvent (Event.exec addCmd cwd) = false := rfl

theorem isCommit_status (cwd : Option String) :
    isCommitEvent (Event.exec statusCmd cwd) = false := rfl

theorem isCommit_commit (m u pw : String) (cwd : Option String) :
    isCommitEvent (Event.exec (commitCmd m u pw) cwd) = true := rfl

/-- No commit invocation occurs before the reconciliation steps. -/
theorem commitCount_preEvents (env : Env) (w : World) :
    commitCount (preEvents env w) = 0 := by
  cases hW : w.isWindows <;>
    simp [commitCount, preEvents, hW, List.countP_append, List.countP_cons,
      isCommit_version, isCommit_mkdir, isCommit_checkout, isCommit_update,
      isCommit_robocopy, isCommit_portable, isCommit_statusXml]

/-- No commit invocation occurs among the forced removes. -/
theorem commitCount_rmMap (ps : List String) (wc : String) :
    commitCount (ps.map (fun p => Event.exec (rmCmd p) (some wc))) = 0 := by
  rw [commitCount, List.countP_eq_zero]
  intro e he
  obtain ⟨p, _, hpe⟩ := List.mem_map.mp he
  rw [← hpe, isCommit_rm]
  simp

/-- C2 (commit gating): in every run that reaches the commit decision, an
empty (after stripping) status text means no commit command is invoked and the
run returns successfully; a non-empty status text means exactly one commit
command is invoked. -/
theorem commit_gating (env : Env) (w : World) (x : Xml)
    (h1 : env.source_path ≠ "") (h2 : env.svn_url ≠ "")
    (h3 : w.sourceExists = true) (h4 : w.svnOk = true)
    (h5 : w.checkoutOk = true) (h6 : w.updateOk = true)
    (h7 : w.statusXmlCmdOk = true) (h8 : w.statusXmlParsed = some x)
    (h9 : ∀ p ∈ parse_missing_paths_from_status_xml x, w.rmOk p = true)
    (h10 : w.addOk = true) (h11 : w.statusCmdOk = true) :
    (pyStrip w.statusRaw = "" →
      commitCount (mainRun env w).1 = 0 ∧ (mainRun env w).2 = Outcome.success) ∧
    (pyStrip w.statusRaw ≠ "" →
      commitCount (mainRun env w).1 = 1) := by
  rw [mainRun_reach env w x h1 h2 h3 h4 h5 h6 h7 h8 h9]
  constructor
  · intro hempty
    constructor
    · rw [commitCount, List.countP_append, List.countP_append,
        ← commitCount, ← commitCount, ← commitCount, commitCount_preEvents,
        commitCount_rmMap]
      rw [commitCount, List.countP_cons, tailEvents]
      simp [h10, h11, get_pending_status, hempty, isCommit_add, isCommit_status]
    · rw [tailOutcome]
      simp [h10, h11, get_pending_status, hempty]
  · intro hne
    rw [commitCount, List.countP_append, List.countP_append,
      ← commitCount, ← commitCount, ← commitCount, commitCount_preEvents,
      commitCount_rmMap]
    rw [commitCount, List.countP_cons, tailEvents]
    simp [h10, h11, get_pending_status, hne, isCommit_add, isCommit_status,
      isCommit_commit, List.countP_cons]

/-- Witness for C2, both branches, at the concrete sample run: a non-empty
status commits exactly once, a whitespace-only status commits zero times. -/
theorem commit_gating_witness :
    (pyStrip worldSample.statusRaw ≠ "" ∧
      commitCount (mainRun envSample worldSample).1 = 1) ∧
    (pyStrip "" = "" ∧
      commitCount (mainRun envSample { worldSample with statusRaw := "" }).1 = 0 ∧
      (mainRun envSample { worldSample with statusRaw := "" }).2 = Outcome.success) :=
  ⟨⟨by decide,
    (commit_gating envSample worldSample xmlSample (by decide) (by decide)
      (by decide) (by decide) (by decide) (by decide) (by decide) rfl
      (by decide) (by decide) (by decide)).2 (by decide)⟩,
   ⟨by decide,
    (commit_gating envSample { worldSample with statusRaw := "" } xmlSample
      (by decide) (by decide) (by decide) (by decide) (by decide) (by decide)
      (by decide) rfl (by decide) (by decide) (by decide)).1 (by decide)⟩⟩

/-- C10 (whitespace normalization in the commit gate): the emptiness check of
the commit decision is applied to the stripped status text, so output whose
strip is empty — in particular whitespace-only output such as a lone newline —
is treated as "no changes": the pending flag is false, no commit is invoked,
and the run succeeds. -/
theorem whitespace_status_suppresses_commit (env : Env) (w : World) (x : Xml)
    (h1 : env.source_path ≠ "") (h2 : env.svn_url ≠ "")
    (h3 : w.sourceExists = true) (h4 : w.svnOk = true)
    (h5 : w.checkoutOk = true) (h6 : w.updateOk = true)
    (h7 : w.statusXmlCmdOk = true) (h8 : w.statusXmlParsed = some x)
    (h9 : ∀ p ∈ parse_missing_paths_from_status_xml x, w.rmOk p = true)
    (h10 : w.addOk = true) (h11 : w.statusCmdOk = true)
    (hws : pyStrip w.statusRaw = "") :
    (get_pending_status w.statusRaw).2 = false ∧
    commitCount (mainRun env w).1 = 0 ∧ (mainRun env w).2 = Outcome.success := by
  refine ⟨by simp [get_pending_status, hws], ?_, ?_⟩
  · rw [mainRun_reach env w x h1 h2 h3 h4 h5 h6 h7 h8 h9]
    rw [commitCount, List.countP_append, List.countP_append,
      ← commitCount, ← commitCount, ← commitCount, commitCount_preEvents,
      commitCount_rmMap]
    rw [commitCount, List.countP_cons, tailEvents]
    simp [h10, h11, get_pending_status, hws, isCommit_add, isCommit_status]
  · rw [mainRun_reach env w x h1 h2 h3 h4 h5 h6 h7 h8 h9, tailOutcome]
    simp [h10, h11, get_pending_status, hws]

/-- Witness for C10: a status output consisting of a newline and blanks is
treated as no changes and the sample run commits nothing. -/
theorem whitespace_status_suppresses_commit_witness :
    pyStrip "\n  " = "" ∧
    (get_pending_status "\n  ").2 = false ∧
    commitCount (mainRun envSample { worldSample with statusRaw := "\n  " }).1 = 0 ∧
    (mainRun envSample { worldSample with statusRaw := "\n  " }).2 =
      Outcome.success :=
  ⟨by decide,
   whitespace_status_suppresses_commit envSample
     { worldSample with statusRaw := "\n  " } xmlSample (by decide) (by decide)
     (by decide) (by decide) (by decide) (by decide) (by decide) rfl
     (by decide) (by decide) (by decide) (by decide)⟩

/-- The broad add event never occurs in the fixed prefix of the trace. -/
theorem addEvent_not_mem_preEvents (env : Env) (w : World) (cwd : Option String) :
    Event.exec addCmd cwd ∉ preEvents env w := by
  cases hW : w.isWindows <;>
    simp [preEvents, hW, addCmd, svnVersionCmd, updateCmd, statusXmlCmd,
      checkoutCmd, robocopyCmd]

/-- The broad add event is not a forced-remove event. -/
theorem addEvent_not_mem_rmMap (ps : List String) (wc : String)
    (cwd : Option String) :
    Event.exec addCmd cwd ∉ ps.map (fun p => Event.exec (rmCmd p) (some wc)) := by
  intro h
  obtain ⟨p, _, hpe⟩ := List.mem_map.mp h
  simp [rmCmd, addCmd] at hpe

/-- The broad add event never occurs in the tail of the trace either. -/
theorem addEvent_not_mem_tailEvents (env : Env) (w : World)
    (cwd : Option String) :
    Event.exec addCmd cwd ∉ tailEvents env w := by
  rw [tailEvents]
  split
  · simp
  · intro h
    rcases List.mem_cons.mp h with he | he
    · simp [statusCmd, addCmd] at he
    · split at he
      · simp at he
      · split at he
        · simp at he
        · simp [commitCmd, addCmd] at he

/-- C3 (reconciler ordering): in every run that reaches the reconciliation
steps, the broad recursive add is invoked exactly once, every forced remove of
a path reported `missing` by the status query is invoked before it, and no add
invocation precedes any of the scheduled removes. -/
theorem rm_before_add (env : Env) (w : World) (x : Xml)
    (h1 : env.source_path ≠ "") (h2 : env.svn_url ≠ "")
    (h3 : w.sourceExists = true) (h4 : w.svnOk = true)
    (h5 : w.checkoutOk = true) (h6 : w.updateOk = true)
    (h7 : w.statusXmlCmdOk = true) (h8 : w.statusXmlParsed = some x)
    (h9 : ∀ p ∈ parse_missing_paths_from_status_xml x, w.rmOk p = true) :
    ∃ pre post,
      (mainRun env w).1 = pre ++ Event.exec addCmd (some w.wcRoot) :: post ∧
      (∀ p ∈ parse_missing_paths_from_status_xml x,
        Event.exec (rmCmd p) (some w.wcRoot) ∈ pre) ∧
      Event.exec addCmd (some w.wcRoot) ∉ pre ∧
      Event.exec addCmd (some w.wcRoot) ∉ post := by
  refine ⟨preEvents env w
      ++ (parse_missing_paths_from_status_xml x).map
          (fun p => Event.exec (rmCmd p) (some w.wcRoot)),
    tailEvents env w, ?_, ?_, ?_, ?_⟩
  · rw [mainRun_reach env w x h1 h2 h3 h4 h5 h6 h7 h8 h9, List.append_assoc]
  · intro p hp
    exact List.mem_append_right _ (List.mem_map.mpr ⟨p, hp, rfl⟩)
  · intro h
    rcases List.mem_append.mp h with h | h
    · exact addEvent_not_mem_preEvents env w _ h
    · exact addEvent_not_mem_rmMap _ _ _ h
  · exact addEvent_not_mem_tailEvents env w _

/-- Witness for C3 at the sample run, whose status document reports `old.txt`
as missing. -/
theorem rm_before_add_witness :
    ∃ pre post,
      (mainRun envSample worldSample).1 =
        pre ++ Event.exec addCmd (some worldSample.wcRoot) :: post ∧
      (∀ p ∈ parse_missing_paths_from_status_xml xmlSample,
        Event.exec (rmCmd p) (some worldSample.wcRoot) ∈ pre) ∧
      Event.exec addCmd (some worldSample.wcRoot) ∉ pre ∧
      Event.exec addCmd (some worldSample.wcRoot) ∉ post :=
  rm_before_add envSample worldSample xmlSample (by decide) (by decide)
    (by decide) (by decide) (by decide) (by decide) (by decide) rfl (by decide)

/-- Shape of a run whose `svn status --xml` output does not parse: the trace
stops at the status query and the outcome is fatal. -/
theorem mainRun_parse_fail (env : Env) (w : World)
    (h1 : env.source_path ≠ "") (h2 : env.svn_url ≠ "")
    (h3 : w.sourceExists = true) (h4 : w.svnOk = true)
    (h5 : w.checkoutOk = true) (h6 : w.updateOk = true)
    (h7 : w.statusXmlCmdOk = true) (h8 : w.statusXmlParsed = none) :
    mainRun env w = (preEvents env w, Outcome.fatal) := by
  rw [mainRun]
  simp only [h3, h4, h5, h6, h7, h8, preEvents, beq_iff_eq, if_neg h1,
    if_neg h2, Bool.not_true, Bool.false_eq_true, if_false]
  simp

/-- C6 (parse failure is fatal): if the captured machine-readable status
output is not parseable as XML, the run aborts with a fatal outcome and no
forced remove and no broad add is ever invoked. -/
theorem parse_failure_fatal (env : Env) (w : World)
    (h1 : env.source_path ≠ "") (h2 : env.svn_url ≠ "")
    (h3 : w.sourceExists = true) (h4 : w.svnOk = true)
    (h5 : w.checkoutOk = true) (h6 : w.updateOk = true)
    (h7 : w.statusXmlCmdOk = true) (h8 : w.statusXmlParsed = none) :
    (mainRun env w).2 = Outcome.fatal ∧
    ∀ p cwd, Event.exec (rmCmd p) cwd ∉ (mainRun env w).1 ∧
      Event.exec addCmd cwd ∉ (mainRun env w).1 := by
  rw [mainRun_parse_fail env w h1 h2 h3 h4 h5 h6 h7 h8]
  refine ⟨rfl, fun p cwd => ⟨?_, addEvent_not_mem_preEvents env w cwd⟩⟩
  cases hW : w.isWindows <;>
    simp [preEvents, hW, rmCmd, svnVersionCmd, updateCmd, statusXmlCmd,
      checkoutCmd, robocopyCmd]

/-- Witness for C6 at the sample run with an unparseable status document. -/
theorem parse_failure_fatal_witness :
    (mainRun envSample { worldSample with statusXmlParsed := none }).2 =
      Outcome.fatal ∧
    ∀ p cwd, Event.exec (rmCmd p) cwd ∉
        (mainRun envSample { worldSample with statusXmlParsed := none }).1 ∧
      Event.exec addCmd cwd ∉
        (mainRun envSample { worldSample with statusXmlParsed := none }).1 :=
  parse_failure_fatal envSample { worldSample with statusXmlParsed := none }
    (by decide) (by decide) (by decide) (by decide) (by decide) (by decide)
    (by decide) rfl

/-- C7 (precondition-failure atomicity): when the source path exists but the
`svn` availability probe fails, the entire run consists of that single probe
invocation and aborts — the working-copy directory is never created and no
checkout, mirror or commit command is ever invoked. -/
theorem tool_missing_aborts_before_mutation (env : Env) (w : World)
    (h1 : env.source_path ≠ "") (h2 : env.svn_url ≠ "")
    (h3 : w.sourceExists = true) (h4 : w.svnOk = false) :
    mainRun env w = ([Event.exec svnVersionCmd none], Outcome.fatal) := by
  rw [mainRun]
  simp [h3, h4, if_neg h1, if_neg h2]

/-- Witness for C7: the sample run with the tool probe failing performs
exactly the probe and aborts. -/
theorem tool_missing_aborts_before_mutation_witness :
    mainRun envSample { worldSample with svnOk := false } =
      ([Event.exec svnVersionCmd none], Outcome.fatal) :=
  tool_missing_aborts_before_mutation envSample
    { worldSample with svnOk := false } (by decide) (by decide) (by decide) rfl

/-- C9 (credentials coupling): the checkout and the commit command carry the
`--username U --password P --no-auth-cache` flags exactly when both the
username and the password are set and non-empty (an unset environment variable
is the empty string in this model); otherwise — in particular when exactly one
of the two is provided — neither command carries any credential flag. -/
theorem credentials_coupling (url dest msg username password : String) :
    ((username ≠ "" ∧ password ≠ "") →
      checkoutCmd url dest username password =
        ["svn", "checkout", url, dest, "--non-interactive",
         "--trust-server-cert", "--username", username, "--password", password,
         "--no-auth-cache"] ∧
      commitCmd msg username password =
        ["svn", "commit", "-m", msg, "--non-interactive", "--trust-server-cert",
         "--username", username, "--password", password, "--no-auth-cache"]) ∧
    (¬(username ≠ "" ∧ password ≠ "") →
      checkoutCmd url dest username password =
        ["svn", "checkout", url, dest, "--non-interactive",
         "--trust-server-cert"] ∧
      commitCmd msg username password =
        ["svn", "commit", "-m", msg, "--non-interactive",
         "--trust-server-cert"]) := by
  constructor
  · intro h
    constructor <;> simp [checkoutCmd, commitCmd, if_pos h]
  · intro h
    constructor <;> simp [checkoutCmd, commitCmd, if_neg h]

/-- Witness for C9: both credentials present yields the flags on the checkout
command; a username without a password yields a flagless commit command. -/
theorem credentials_coupling_witness :
    checkoutCmd "https://svn.example/repo" "/tmp/svn-wc" "alice" "secret" =
      ["svn", "checkout", "https://svn.example/repo", "/tmp/svn-wc",
       "--non-interactive", "--trust-server-cert", "--username", "alice",
       "--password", "secret", "--no-auth-cache"] ∧
    commitCmd "sync" "alice" "" =
      ["svn", "commit", "-m", "sync", "--non-interactive",
       "--trust-server-cert"] :=
  ⟨((credentials_coupling "https://svn.example/repo" "/tmp/svn-wc" "sync"
      "alice" "secret").1 (by decide)).1,
   ((credentials_coupling "https://svn.example/repo" "/tmp/svn-wc" "sync"
      "alice" "").2 (by decide)).2⟩

end SvnSync
